import Mathlib

/-!
Verification of the tg-fuse virtual filesystem core against its
natural-language specification.

The development is a shallow embedding of the relevant C++ functions:

* `src/fuse/message_formatter.cpp` — byte-level text validation and
  message chunking (`is_valid_text`, `split_message`);
* `src/fuse/telegram_provider.cpp` — the path router (`parse_path`),
  `messages`-file write semantics (`write_file`, `send_message`),
  `truncate_file`, upload creation (`create_file`,
  `is_valid_media_extension`), symlink resolution (`get_entry`
  ROOT_SYMLINK case, `read_link`), and the message render pipeline
  (`fetch_and_format_messages`, `format_and_cache_messages`);
* `src/fuse/messages_cache.cpp` — the formatted message cache
  (`get`, `get_content_size`, `invalidate`);
* `src/fuse/background_prefetcher.cpp` — the prefetch scan
  (`get_chats_to_fetch`, `needs_fetch`, the priority queue drain);
* `src/fuse/operations.cpp` — the FUSE surface (`read`, `write`,
  `truncate` errno mapping);
* `src/tg/cache.cpp` — the durable message store keyed by
  `(chat_id, id)` (`cache_message`).

Byte buffers are modelled as `List Nat` (each element one byte),
paths and filenames as `String`, machine integers as `Nat`/`Int`.
-/

namespace TgFuse

/-! ## Errno constants (POSIX values used by the FUSE surface) -/

def EPERM : Int := 1
def ENOENT : Int := 2
def EIO : Int := 5
def EACCES : Int := 13
def EINVAL : Int := 22

/-! ## MessageFormatter (src/fuse/message_formatter.cpp)

`is_valid_text` (lines 133–157): reject buffers containing a NUL byte;
count control characters other than tab (9), LF (10), CR (13); reject
when the count exceeds `size / 20` (or 1 for buffers under 20 bytes).
-/

/-- A byte that `is_valid_text` counts as non-printable: a control
character (`c < 32`) other than tab, LF, CR. -/
def isCtrlByte (c : Nat) : Bool :=
  c < 32 && c ≠ 9 && c ≠ 10 && c ≠ 13

/-- `MessageFormatter::is_valid_text(data, size)`. The loop returns
`false` at the first NUL byte and otherwise counts non-printable
control bytes, comparing against the threshold. -/
def is_valid_text (data : List Nat) : Bool :=
  if data.length = 0 then true
  else if data.contains 0 then false
  else
    let np := data.countP isCtrlByte
    let threshold := if data.length < 20 then 1 else data.length / 20
    np ≤ threshold

/-- Whitespace bytes at which `split_message` prefers to split:
space (32), LF (10), tab (9) — see the backward search at
message_formatter.cpp:187. -/
def isWsByte (c : Nat) : Bool :=
  c == 32 || c == 10 || c == 9

/-- Telegram's per-message byte limit, the default `max_size` of
`MessageFormatter::split_message` (message_formatter.hpp:52). -/
def chunkLimit : Nat := 4096

/-- The backward whitespace search of `split_message`
(message_formatter.cpp:186–191): scan indices `i, i-1, …, 1` of the
remaining text `t` and return the first whitespace index found, else
the default `dflt` (the forced split at `chunk_end`). -/
def findSplitGo (t : List Nat) : Nat → Nat → Nat
  | 0, dflt => dflt
  | i + 1, dflt =>
    if isWsByte (t.getD (i + 1) 0) then i + 1 else findSplitGo t i dflt

theorem findSplitGo_pos (t : List Nat) (i d : Nat) (hd : 0 < d) :
    0 < findSplitGo t i d := by
  induction i with
  | zero => simpa [findSplitGo] using hd
  | succ n ih =>
    simp only [findSplitGo]
    split
    · exact Nat.succ_pos n
    · exact ih

theorem findSplitGo_le (t : List Nat) (i d : Nat) (h : i ≤ d) :
    findSplitGo t i d ≤ d := by
  induction i with
  | zero => simp [findSplitGo]
  | succ n ih =>
    simp only [findSplitGo]
    split
    · exact h
    · exact ih (Nat.le_of_succ_le h)

/-- The tail left for the next iteration of the `split_message` loop
(message_formatter.cpp:198–204): everything after the split point,
with the whitespace byte at the split point skipped when present. -/
def splitRest (x : List Nat) (sp : Nat) : List Nat :=
  match x.drop sp with
  | [] => []
  | c :: tl => if isWsByte c then tl else c :: tl

theorem splitRest_cases (x : List Nat) (sp : Nat) :
    x.drop sp = splitRest x sp ∨
      ∃ w, isWsByte w = true ∧ x.drop sp = w :: splitRest x sp := by
  rcases hr : x.drop sp with _ | ⟨c, tl⟩
  · left
    simp [splitRest, hr]
  · by_cases hw : isWsByte c = true
    · right
      refine ⟨c, hw, ?_⟩
      simp [splitRest, hr, hw]
    · left
      simp [splitRest, hr, hw]

theorem splitRest_length_lt (x : List Nat) (sp : Nat) (hsp : 0 < sp)
    (hx : x ≠ []) : (splitRest x sp).length < x.length := by
  have hlen : 0 < x.length := List.length_pos.mpr hx
  have hdrop : (x.drop sp).length < x.length := by
    rw [List.length_drop]
    omega
  rcases splitRest_cases x sp with h | ⟨w, _, h⟩
  · rw [← h]
    exact hdrop
  · rw [h, List.length_cons] at hdrop
    omega

/-- The chunking loop of `split_message`, with an explicit structural
bound `fuel` (each iteration strictly shortens the remaining text, so
any `fuel ≥ text.length` gives the loop's behaviour; the fuel-zero
fallback is unreachable then).  Per iteration: if the remainder fits,
it is the last chunk; otherwise take a chunk up to the split point
found by the backward whitespace search (forced at `chunkLimit` when
no whitespace is found), skip the whitespace byte at the split point
if there is one (`splitRest`), and continue. -/
def splitGo : Nat → List Nat → List (List Nat)
  | _, [] => []
  | 0, t => [t]
  | fuel + 1, t =>
    if t.length ≤ chunkLimit then [t]
    else
      let sp := findSplitGo t chunkLimit chunkLimit
      t.take sp :: splitGo fuel (splitRest t sp)

/-- `MessageFormatter::split_message(text, 4096)`
(message_formatter.cpp:159–208). The early returns for empty and
small inputs coincide with the loop's own exit tests, so the whole
function is the loop `splitGo`, run with sufficient fuel. -/
def split_message (text : List Nat) : List (List Nat) :=
  splitGo text.length text

/-! ## Send path (src/fuse/telegram_provider.cpp) -/

/-- `tgfuse::WriteResult` (data_provider.hpp:70–74). `bytes_written`
is an `int` in the source; all values produced here are byte counts,
modelled as `Nat`. -/
structure WriteResult where
  success : Bool
  bytes_written : Nat
  error_message : String
  deriving Repr, DecidableEq

/-- The trailing-newline trim loop of `send_message`
(telegram_provider.cpp:1934–1936): pop trailing `\n` (10) and `\r`
(13) bytes. -/
def trimTrailingNewlines (data : List Nat) : List Nat :=
  (data.reverse.dropWhile (fun c => c == 10 || c == 13)).reverse

/-- `TelegramDataProvider::send_message(chat_id, data, size)`
(telegram_provider.cpp:1917–1960), modelled with a successful RPC.
The second component is the sequence of buffers submitted through
`client_.send_text`, in submission order (empty when the function
returns before the send loop). -/
def send_message (data : List Nat) : WriteResult × List (List Nat) :=
  if data.length = 0 then (⟨true, 0, ""⟩, [])
  else if ¬ is_valid_text data then (⟨false, 0, "Binary data not allowed"⟩, [])
  else
    let text := trimTrailingNewlines data
    if text = [] then (⟨true, data.length, ""⟩, [])
    else (⟨true, data.length, ""⟩, split_message text)

/-- The branch structure of `TelegramDataProvider::write_file` for a
`messages` path once the chat is resolved
(telegram_provider.cpp:1886–1915). `C` is
`messages_cache_->get_content_size(chat_id)`, `data` the write buffer
(so `size = data.length`), `offset` the write offset. The second
component again records the buffers passed to the send path. -/
def write_file_messages (C : Nat) (data : List Nat) (offset : Nat) :
    WriteResult × List (List Nat) :=
  if C = 0 then send_message data
  else if offset = 0 ∧ data.length > C then send_message (data.drop C)
  else if offset > C then (⟨true, data.length, ""⟩, [])
  else (⟨true, data.length, ""⟩, [])

/-- The candidate slice of a `messages` write: the part of the buffer
`write_file` hands to `send_message`, if any (spec §4.5's table). -/
def messagesWriteCandidate (C : Nat) (data : List Nat) (offset : Nat) :
    Option (List Nat) :=
  if C = 0 then some data
  else if offset = 0 ∧ data.length > C then some (data.drop C)
  else none

/-- The errno mapping of `DataProviderOperations::write`
(operations.cpp:180–185): a failed `WriteResult` surfaces as `-EIO`,
a successful one returns the byte count. -/
def operations_write_ret (r : WriteResult) : Int :=
  if r.success then (r.bytes_written : Int) else - EIO

/-! ## Chunk concatenation up to removed whitespace -/

/-- `Joins cs t` says the text `t` is the concatenation of the chunks
`cs`, with at most one whitespace byte dropped after each chunk (the
byte consumed at a split point). This is the spec-side reading of
"concatenation of the chunks modulo the single whitespace character
removed at each split point". -/
def Joins : List (List Nat) → List Nat → Prop
  | [], t => t = []
  | c :: cs, t =>
    ∃ s rest, (s = [] ∨ ∃ w, isWsByte w = true ∧ s = [w]) ∧
      t = c ++ s ++ rest ∧ Joins cs rest

theorem splitGo_chunk_le (fuel : Nat) : ∀ (t : List Nat), t.length ≤ fuel →
    ∀ c ∈ splitGo fuel t, c.length ≤ chunkLimit := by
  induction fuel with
  | zero =>
    intro t hf c hc
    have ht : t = [] := List.eq_nil_of_length_eq_zero (Nat.le_zero.mp hf)
    subst ht
    simp [splitGo] at hc
  | succ n ih =>
    intro t hf c hc
    rcases t with _ | ⟨x, xs⟩
    · simp [splitGo] at hc
    · simp only [splitGo] at hc
      by_cases hle : (x :: xs).length ≤ chunkLimit
      · rw [if_pos hle] at hc
        simp only [List.mem_singleton] at hc
        subst hc
        exact hle
      · rw [if_neg hle] at hc
        simp only [List.mem_cons] at hc
        rcases hc with hc | hc
        · subst hc
          calc ((x :: xs).take (findSplitGo (x :: xs) chunkLimit chunkLimit)).length
              ≤ findSplitGo (x :: xs) chunkLimit chunkLimit := by
                simp [List.length_take]
            _ ≤ chunkLimit := findSplitGo_le _ chunkLimit chunkLimit le_rfl
        · have hlt : (splitRest (x :: xs)
              (findSplitGo (x :: xs) chunkLimit chunkLimit)).length <
              (x :: xs).length :=
            splitRest_length_lt _ _
              (findSplitGo_pos _ chunkLimit chunkLimit (by decide)) (by simp)
          refine ih (splitRest (x :: xs) (findSplitGo (x :: xs) chunkLimit chunkLimit))
            ?_ c hc
          simp only [List.length_cons] at hlt hf
          omega

theorem splitGo_joins (fuel : Nat) : ∀ (t : List Nat), t.length ≤ fuel →
    Joins (splitGo fuel t) t := by
  induction fuel with
  | zero =>
    intro t hf
    have ht : t = [] := List.eq_nil_of_length_eq_zero (Nat.le_zero.mp hf)
    subst ht
    simp [splitGo, Joins]
  | succ n ih =>
    intro t hf
    rcases t with _ | ⟨x, xs⟩
    · simp [splitGo, Joins]
    · simp only [splitGo]
      by_cases hle : (x :: xs).length ≤ chunkLimit
      · rw [if_pos hle]
        exact ⟨[], [], Or.inl rfl, by simp, rfl⟩
      · rw [if_neg hle]
        have hlt : (splitRest (x :: xs)
            (findSplitGo (x :: xs) chunkLimit chunkLimit)).length <
            (x :: xs).length :=
          splitRest_length_lt _ _
            (findSplitGo_pos _ chunkLimit chunkLimit (by decide)) (by simp)
        have hih : Joins
            (splitGo n (splitRest (x :: xs) (findSplitGo (x :: xs) chunkLimit chunkLimit)))
            (splitRest (x :: xs) (findSplitGo (x :: xs) chunkLimit chunkLimit)) := by
          refine ih _ ?_
          simp only [List.length_cons] at hlt hf
          omega
        have htd : x :: xs =
            (x :: xs).take (findSplitGo (x :: xs) chunkLimit chunkLimit) ++
            (x :: xs).drop (findSplitGo (x :: xs) chunkLimit chunkLimit) :=
          (List.take_append_drop _ _).symm
        simp only [Joins]
        rcases splitRest_cases (x :: xs) (findSplitGo (x :: xs) chunkLimit chunkLimit)
          with h | ⟨w, hw, h⟩
        · refine ⟨[], splitRest (x :: xs) (findSplitGo (x :: xs) chunkLimit chunkLimit),
            Or.inl rfl, ?_, hih⟩
          conv_lhs => rw [htd, h]
          simp
        · refine ⟨[w], splitRest (x :: xs) (findSplitGo (x :: xs) chunkLimit chunkLimit),
            Or.inr ⟨w, hw, rfl⟩, ?_, hih⟩
          conv_lhs => rw [htd, h]
          simp

theorem split_message_chunk_le (text : List Nat) :
    ∀ c ∈ split_message text, c.length ≤ chunkLimit :=
  splitGo_chunk_le text.length text le_rfl

theorem split_message_joins (text : List Nat) :
    Joins (split_message text) text :=
  splitGo_joins text.length text le_rfl

/-! ## Path router (telegram_provider.cpp:427–573) -/

/-- `TelegramDataProvider::PathCategory` (telegram_provider.hpp:56–92). -/
inductive PathCategory
  | NOT_FOUND
  | ROOT
  | USERS_DIR | CONTACTS_DIR | GROUPS_DIR | CHANNELS_DIR
  | USER_DIR | USER_INFO | USER_MESSAGES
  | USER_FILES_DIR | USER_FILE | USER_MEDIA_DIR | USER_MEDIA
  | GROUP_DIR | GROUP_INFO | GROUP_MESSAGES
  | GROUP_FILES_DIR | GROUP_FILE | GROUP_MEDIA_DIR | GROUP_MEDIA
  | CHANNEL_DIR | CHANNEL_INFO | CHANNEL_MESSAGES
  | CHANNEL_FILES_DIR | CHANNEL_FILE | CHANNEL_MEDIA_DIR | CHANNEL_MEDIA
  | CONTACT_SYMLINK | ROOT_SYMLINK | SELF_SYMLINK | UPLOADS_DIR
  | USER_UPLOAD | GROUP_UPLOAD | CHANNEL_UPLOAD
  deriving Repr, DecidableEq

/-- `TelegramDataProvider::PathInfo` (telegram_provider.hpp:95–99). -/
structure PathInfo where
  category : PathCategory := .NOT_FOUND
  entity_name : String := ""
  file_entry_name : String := ""
  deriving Repr, DecidableEq

/-- Split a character list on `/` separators (the component iteration
of `std::filesystem::path` at telegram_provider.cpp:441–446; empty
groups are filtered by the caller). -/
def splitOnSlash : List Char → List (List Char)
  | [] => [[]]
  | c :: rest =>
    if c = '/' then [] :: splitOnSlash rest
    else
      match splitOnSlash rest with
      | [] => [[c]]
      | g :: gs => (c :: g) :: gs

/-- The `.` / `..` resolution performed by
`std::filesystem::path::lexically_normal` on an absolute path
(telegram_provider.cpp:437): drop `.` components, let `..` pop the
previous component. -/
def normalizeComponents (l : List String) : List String :=
  l.foldl
    (fun acc c =>
      if c = "." then acc
      else if c = ".." then acc.dropLast
      else acc ++ [c])
    []

/-- The normalised, non-empty component list of a path. -/
def pathComponents (path : String) : List String :=
  normalizeComponents
    (((splitOnSlash path.toList).map (fun cs => String.mk cs)).filter (· ≠ ""))

/-- The dispatch of `TelegramDataProvider::parse_path` on the
component list (telegram_provider.cpp:448–572). -/
def parse_components (components : List String) : PathInfo :=
  match components with
  | [] => { category := .ROOT }
  | [c] =>
    if c ≠ "" ∧ c.toList.headD ' ' = '@' then
      { category := .ROOT_SYMLINK, entity_name := String.mk c.toList.tail }
    else if c = "self" then { category := .SELF_SYMLINK }
    else if c = ".uploads" then { category := .UPLOADS_DIR }
    else if c = "users" then { category := .USERS_DIR }
    else if c = "contacts" then { category := .CONTACTS_DIR }
    else if c = "groups" then { category := .GROUPS_DIR }
    else if c = "channels" then { category := .CHANNELS_DIR }
    else { category := .NOT_FOUND }
  | [c, e] =>
    if c = "users" then { category := .USER_DIR, entity_name := e }
    else if c = "contacts" then { category := .CONTACT_SYMLINK, entity_name := e }
    else if c = "groups" then { category := .GROUP_DIR, entity_name := e }
    else if c = "channels" then { category := .CHANNEL_DIR, entity_name := e }
    else { category := .NOT_FOUND }
  | [c, e, f] =>
    if c = "users" then
      if f = ".info" then { category := .USER_INFO, entity_name := e }
      else if f = "messages" then { category := .USER_MESSAGES, entity_name := e }
      else if f = "files" then { category := .USER_FILES_DIR, entity_name := e }
      else if f = "media" then { category := .USER_MEDIA_DIR, entity_name := e }
      else { category := .USER_UPLOAD, entity_name := e, file_entry_name := f }
    else if c = "groups" then
      if f = ".info" then { category := .GROUP_INFO, entity_name := e }
      else if f = "messages" then { category := .GROUP_MESSAGES, entity_name := e }
      else if f = "files" then { category := .GROUP_FILES_DIR, entity_name := e }
      else if f = "media" then { category := .GROUP_MEDIA_DIR, entity_name := e }
      else { category := .GROUP_UPLOAD, entity_name := e, file_entry_name := f }
    else if c = "channels" then
      if f = ".info" then { category := .CHANNEL_INFO, entity_name := e }
      else if f = "messages" then { category := .CHANNEL_MESSAGES, entity_name := e }
      else if f = "files" then { category := .CHANNEL_FILES_DIR, entity_name := e }
      else if f = "media" then { category := .CHANNEL_MEDIA_DIR, entity_name := e }
      else { category := .CHANNEL_UPLOAD, entity_name := e, file_entry_name := f }
    else { category := .NOT_FOUND }
  | [c, e, d, f] =>
    if c = "users" ∧ d = "files" then
      { category := .USER_FILE, entity_name := e, file_entry_name := f }
    else if c = "users" ∧ d = "media" then
      { category := .USER_MEDIA, entity_name := e, file_entry_name := f }
    else if c = "groups" ∧ d = "files" then
      { category := .GROUP_FILE, entity_name := e, file_entry_name := f }
    else if c = "groups" ∧ d = "media" then
      { category := .GROUP_MEDIA, entity_name := e, file_entry_name := f }
    else if c = "channels" ∧ d = "files" then
      { category := .CHANNEL_FILE, entity_name := e, file_entry_name := f }
    else if c = "channels" ∧ d = "media" then
      { category := .CHANNEL_MEDIA, entity_name := e, file_entry_name := f }
    else { category := .NOT_FOUND }
  | _ => { category := .NOT_FOUND }

/-- `TelegramDataProvider::parse_path` (telegram_provider.cpp:427–573). -/
def parse_path (path : String) : PathInfo :=
  if path = "" ∨ path = "/" then { category := .ROOT }
  else parse_components (pathComponents path)

/-- `TelegramDataProvider::is_messages_path`
(telegram_provider.cpp:1432–1435). -/
def is_messages_path (c : PathCategory) : Bool :=
  c = .USER_MESSAGES || c = .GROUP_MESSAGES || c = .CHANNEL_MESSAGES

/-- `TelegramDataProvider::is_files_dir_path`
(telegram_provider.cpp:1437–1440). -/
def is_files_dir_path (c : PathCategory) : Bool :=
  c = .USER_FILES_DIR || c = .GROUP_FILES_DIR || c = .CHANNEL_FILES_DIR

/-- `TelegramDataProvider::is_file_path`
(telegram_provider.cpp:1442–1445). -/
def is_file_path (c : PathCategory) : Bool :=
  c = .USER_FILE || c = .GROUP_FILE || c = .CHANNEL_FILE

/-- `TelegramDataProvider::is_media_dir_path`
(telegram_provider.cpp:1447–1450). -/
def is_media_dir_path (c : PathCategory) : Bool :=
  c = .USER_MEDIA_DIR || c = .GROUP_MEDIA_DIR || c = .CHANNEL_MEDIA_DIR

/-- `TelegramDataProvider::is_media_path`
(telegram_provider.cpp:1452–1455). -/
def is_media_path (c : PathCategory) : Bool :=
  c = .USER_MEDIA || c = .GROUP_MEDIA || c = .CHANNEL_MEDIA

/-- `TelegramDataProvider::is_upload_path`
(telegram_provider.cpp:1848–1852). -/
def is_upload_path (c : PathCategory) : Bool :=
  is_files_dir_path c || is_file_path c || is_media_dir_path c ||
    is_media_path c || c = .USER_UPLOAD || c = .GROUP_UPLOAD ||
    c = .CHANNEL_UPLOAD

/-- `TelegramDataProvider::truncate_file`
(telegram_provider.cpp:1858–1872). `size` is the `off_t` argument. -/
def truncate_file (path : String) (size : Int) : Int :=
  let info := parse_path path
  if is_messages_path info.category then
    if size = 0 then 0 else -EPERM
  else -EACCES

/-! ## Formatted messages cache (src/fuse/messages_cache.cpp)

State model: the `lru_list_` and the `chat_id → entry` map are fused
into one association list ordered MRU-first; `hit_count_` /
`miss_count_` are carried explicitly.  Times are seconds of the
steady clock, modelled as `Nat`.
-/

/-- `MessagesCacheConfig` (messages_cache.hpp:23–28); durations in
seconds. -/
structure MessagesCacheConfig where
  max_chats : Nat := 100
  format_ttl : Nat := 3600
  max_history_age : Nat := 172800
  min_messages : Nat := 10
  deriving Repr, DecidableEq

/-- `FormattedMessagesCache::CacheEntry` (messages_cache.hpp:47–52).
`formatted_at` is the steady-clock stamp the header documents as the
TTL reference point. -/
structure CacheEntry where
  content : String
  message_count : Nat
  newest_message_id : Int
  formatted_at : Nat
  deriving Repr, DecidableEq

/-- The mutable state of a `FormattedMessagesCache`: entries in
MRU-first order plus the hit/miss counters. -/
structure CacheState where
  entries : List (Int × CacheEntry)
  hit_count : Nat := 0
  miss_count : Nat := 0
  deriving Repr, DecidableEq

/-- `FormattedMessagesCache::touch` (messages_cache.cpp:242–250):
move the chat to the MRU front. -/
def cacheTouch (st : CacheState) (chat_id : Int) : CacheState :=
  match st.entries.lookup chat_id with
  | none => st
  | some e =>
    { st with entries := (chat_id, e) :: st.entries.filter (fun p => p.1 ≠ chat_id) }

/-- `FormattedMessagesCache::get` (messages_cache.cpp:38–50).  The
implementation returns the stored content whenever the chat is
present: it never reads the clock and never consults `formatted_at`
or `format_ttl`, so the result does not depend on any notion of
"now". On a hit it bumps the hit counter and touches the entry to
MRU; on a miss it bumps the miss counter. -/
def cache_get (st : CacheState) (chat_id : Int) :
    Option String × CacheState :=
  match st.entries.lookup chat_id with
  | none => (none, { st with miss_count := st.miss_count + 1 })
  | some e =>
    (some e.content, cacheTouch { st with hit_count := st.hit_count + 1 } chat_id)

/-- `FormattedMessagesCache::get_content_size`
(messages_cache.cpp:52–60): the stored content's byte size, 0 when
the chat is absent.  (Contents are modelled as ASCII strings, so the
byte size is the length.) -/
def get_content_size (st : CacheState) (chat_id : Int) : Nat :=
  match st.entries.lookup chat_id with
  | none => 0
  | some e => e.content.length

/-- `FormattedMessagesCache::invalidate` (messages_cache.cpp:171–179):
remove the entry entirely. -/
def cache_invalidate (st : CacheState) (chat_id : Int) : CacheState :=
  { st with entries := st.entries.filter (fun p => p.1 ≠ chat_id) }

/-! ## Entity directory and provider-level operations -/

/-- `tg::User` (tg/types.hpp:54–65), restricted to the fields the
verified operations consult. -/
structure TgUser where
  id : Int
  username : String
  is_contact : Bool
  last_message_timestamp : Int
  deriving Repr, DecidableEq

/-- `tg::ChatType` (tg/types.hpp:22–27). -/
inductive ChatType
  | PRIVATE | GROUP | SUPERGROUP | CHANNEL
  deriving Repr, DecidableEq

/-- `tg::Chat` (tg/types.hpp:80–87), restricted to the fields the
verified operations consult. -/
structure TgChat where
  id : Int
  type : ChatType
  last_message_timestamp : Int
  deriving Repr, DecidableEq

/-- The provider's in-memory entity maps (telegram_provider.hpp:252,
257, 261): `users_`, `groups_`, `channels_`, each keyed by directory
name, plus the configured mount point (data_provider.hpp:218). -/
structure EntityDir where
  users : List (String × TgUser)
  groups : List (String × TgChat)
  channels : List (String × TgChat)
  mount_point : String := ""
  deriving Repr, DecidableEq

/-- `TelegramDataProvider::find_user_by_dir_name`
(telegram_provider.cpp:288–294). -/
def find_user_by_dir_name (env : EntityDir) (d : String) : Option TgUser :=
  env.users.lookup d

/-- `TelegramDataProvider::find_group_by_dir_name`
(telegram_provider.cpp:335–341). -/
def find_group_by_dir_name (env : EntityDir) (d : String) : Option TgChat :=
  env.groups.lookup d

/-- `TelegramDataProvider::find_channel_by_dir_name`
(telegram_provider.cpp:401–407). -/
def find_channel_by_dir_name (env : EntityDir) (d : String) : Option TgChat :=
  env.channels.lookup d

/-- `TelegramDataProvider::get_chat_id_from_path`
(telegram_provider.cpp:1629–1648): resolve a `*_MESSAGES` path to a
chat id, 0 when unknown. -/
def get_chat_id_from_path (env : EntityDir) (info : PathInfo) : Int :=
  match info.category with
  | .USER_MESSAGES =>
    match find_user_by_dir_name env info.entity_name with
    | some u => u.id
    | none => 0
  | .GROUP_MESSAGES =>
    match find_group_by_dir_name env info.entity_name with
    | some g => g.id
    | none => 0
  | .CHANNEL_MESSAGES =>
    match find_channel_by_dir_name env info.entity_name with
    | some ch => ch.id
    | none => 0
  | _ => 0

/-- `TelegramDataProvider::write_file(path, data, size, offset)`
(telegram_provider.cpp:1874–1915): parse the path, resolve the chat,
read the cached content size `C` and dispatch on the offset/size
heuristic (`write_file_messages`).  The cache state is only read
(`get_content_size` is const), so it is passed as a value. -/
def write_file (env : EntityDir) (cache : CacheState) (path : String)
    (data : List Nat) (offset : Nat) : WriteResult × List (List Nat) :=
  let info := parse_path path
  if ¬ is_messages_path info.category then
    (⟨false, 0, "Path is not writable"⟩, [])
  else
    let chat_id := get_chat_id_from_path env info
    if chat_id = 0 then (⟨false, 0, "Chat not found"⟩, [])
    else write_file_messages (get_content_size cache chat_id) data offset

/-! ## FUSE surface (src/fuse/operations.cpp) -/

/-- `tgfuse::FileContent` (data_provider.hpp:64–67), with the content
as bytes. -/
structure FileContent where
  data : List Nat
  readable : Bool := true
  deriving Repr, DecidableEq

/-- `DataProviderOperations::read` (operations.cpp:135–153): result
code (negative errno, or the number of bytes read) together with the
bytes copied into the buffer. -/
def operations_read (content : FileContent) (size offset : Nat) :
    Int × List Nat :=
  if ¬ content.readable then (-ENOENT, [])
  else
    let len := content.data.length
    if offset ≥ len then (0, [])
    else
      let toRead := min size (len - offset)
      ((toRead : Int), (content.data.drop offset).take toRead)

/-! ## Upload pipeline (telegram_provider.cpp:1995–2176) -/

/-- `tg::SendMode` (spec §Glossary; tg/types.hpp). -/
inductive SendMode
  | AUTO | MEDIA | DOCUMENT
  deriving Repr, DecidableEq

/-- ASCII lowering as done by `::tolower` in the C locale
(telegram_provider.cpp:1998). -/
def asciiToLower (c : Char) : Char :=
  if 'A' ≤ c ∧ c ≤ 'Z' then Char.ofNat (c.toNat + 32) else c

/-- `std::filesystem::path(filename).extension()` for a filename
component (telegram_provider.cpp:1997): the substring from the last
dot on, except that `.`, `..`, names without a dot, and names whose
only dot is the leading character have no extension. -/
def pathExtension (filename : String) : String :=
  if filename = "." ∨ filename = ".." then ""
  else
    let cs := filename.toList
    let afterRev := cs.reverse.takeWhile (fun c => c ≠ '.')
    if afterRev.length = cs.length then ""
    else
      let dotIdx := cs.length - 1 - afterRev.length
      if dotIdx = 0 then "" else String.mk (cs.drop dotIdx)

/-- The fixed allow-list of `is_valid_media_extension`
(telegram_provider.cpp:2000–2015). -/
def mediaExtensions : List String :=
  [".jpg", ".jpeg", ".png", ".gif", ".webp", ".bmp", ".tiff",
   ".mp4", ".mov", ".avi", ".mkv", ".webm", ".m4v", ".3gp"]

/-- `TelegramDataProvider::is_valid_media_extension`
(telegram_provider.cpp:1995–2017): lower-case the extension and test
membership in the fixed set. -/
def is_valid_media_extension (filename : String) : Bool :=
  mediaExtensions.contains
    (String.mk ((pathExtension filename).toList.map asciiToLower))

/-- `TelegramDataProvider::extract_original_filename`
(telegram_provider.cpp:2019–2025): strip a `YYYYMMDD-HHMM-` stamp
when the name is long enough and has dashes at positions 8 and 13. -/
def extract_original_filename (entry_name : String) : String :=
  let cs := entry_name.toList
  if cs.length > 14 ∧ cs.getD 8 ' ' = '-' ∧ cs.getD 13 ' ' = '-' then
    String.mk (cs.drop 14)
  else entry_name

/-- `TelegramDataProvider::get_chat_id_for_upload`
(telegram_provider.cpp:1962–1993). -/
def get_chat_id_for_upload (env : EntityDir) (info : PathInfo) : Int :=
  match info.category with
  | .USER_UPLOAD | .USER_FILES_DIR | .USER_FILE
  | .USER_MEDIA_DIR | .USER_MEDIA =>
    match find_user_by_dir_name env info.entity_name with
    | some u => u.id
    | none => 0
  | .GROUP_UPLOAD | .GROUP_FILES_DIR | .GROUP_FILE
  | .GROUP_MEDIA_DIR | .GROUP_MEDIA =>
    match find_group_by_dir_name env info.entity_name with
    | some g => g.id
    | none => 0
  | .CHANNEL_UPLOAD | .CHANNEL_FILES_DIR | .CHANNEL_FILE
  | .CHANNEL_MEDIA_DIR | .CHANNEL_MEDIA =>
    match find_channel_by_dir_name env info.entity_name with
    | some ch => ch.id
    | none => 0
  | _ => 0

/-- `TelegramDataProvider::PendingUpload` (telegram_provider.hpp:268–275). -/
structure PendingUpload where
  temp_path : String
  original_filename : String
  virtual_path : String
  chat_id : Int
  mode : SendMode
  bytes_written : Nat := 0
  deriving Repr, DecidableEq

/-- The upload-tracking state: `pending_uploads_` keyed by handle and
the `next_upload_handle_` counter (telegram_provider.hpp:276–278). -/
structure UploadsState where
  pending : List (Nat × PendingUpload) := []
  next_handle : Nat := 1
  deriving Repr, DecidableEq

/-- `TelegramDataProvider::create_file` (telegram_provider.cpp:2119–2176).
Returns `(retcode, fh, state)`; on failure `fh` is 0 and the state is
unchanged (the extension check precedes the creation of the temp
directory, the temp file, and the pending-upload record).  `tmpdir`
models `std::filesystem::temp_directory_path()`. -/
def create_file (env : EntityDir) (st : UploadsState) (tmpdir path : String) :
    Int × Nat × UploadsState :=
  let info := parse_path path
  if ! is_upload_path info.category then (-EACCES, 0, st)
  else
    let chat_id := get_chat_id_for_upload env info
    if chat_id = 0 then (-ENOENT, 0, st)
    else if (is_media_dir_path info.category || is_media_path info.category) &&
        ! is_valid_media_extension info.file_entry_name then
      (-EINVAL, 0, st)
    else
      let upload_mode :=
        if is_files_dir_path info.category || is_file_path info.category then
          SendMode.DOCUMENT
        else if is_media_dir_path info.category || is_media_path info.category then
          SendMode.MEDIA
        else SendMode.AUTO
      let filename := extract_original_filename info.file_entry_name
      let temp_path := tmpdir ++ "/tg-fuse/uploads/" ++
        toString st.next_handle ++ "_" ++ filename
      let fh := st.next_handle
      (0, fh,
        { pending := st.pending ++
            [(fh, { temp_path := temp_path, original_filename := filename,
                    virtual_path := path, chat_id := chat_id,
                    mode := upload_mode })],
          next_handle := st.next_handle + 1 })

/-! ## Symlink resolution (telegram_provider.cpp:1072–1083, 1371–1400) -/

/-- `tgfuse::EntryType` (data_provider.hpp:13). -/
inductive EntryType
  | DIRECTORY | FILE | SYMLINK
  deriving Repr, DecidableEq

/-- `tgfuse::Entry` (data_provider.hpp:16–24), without the
`time(nullptr)` stamps. -/
structure Entry where
  name : String
  type : EntryType
  size : Nat := 0
  mode : Nat := 0
  link_target : String := ""
  deriving Repr, DecidableEq

/-- `TelegramDataProvider::make_symlink_target`
(telegram_provider.cpp:279–286): keep the relative target when no
mount point is configured, otherwise compose with the mount point. -/
def make_symlink_target (mount_point rel : String) : String :=
  if mount_point = "" then rel else mount_point ++ "/" ++ rel

/-- The `ROOT_SYMLINK` case of `TelegramDataProvider::get_entry`
(telegram_provider.cpp:1072–1083): scan `users_` in map order for a
contact whose `username` equals the path's `@`-name and return a
symlink entry to `users/<dir_name>`. -/
def get_entry_root_symlink (env : EntityDir) (uname : String) : Option Entry :=
  env.users.findSome? (fun p =>
    if p.2.username = uname ∧ p.2.is_contact then
      some { name := "@" ++ p.2.username, type := .SYMLINK, mode := 493,
             link_target := make_symlink_target env.mount_point ("users/" ++ p.1) }
    else none)

/-- The `ROOT_SYMLINK` branch of `TelegramDataProvider::read_link`
(telegram_provider.cpp:1377–1384); the function returns `""` when no
contact with the username exists. -/
def read_link_root_symlink (env : EntityDir) (uname : String) : String :=
  match env.users.findSome? (fun p =>
      if p.2.username = uname ∧ p.2.is_contact then
        some (make_symlink_target env.mount_point ("users/" ++ p.1))
      else none) with
  | some t => t
  | none => ""

/-! ## Durable message store and render pipeline
(tg/cache.cpp, telegram_provider.cpp:1667–1841) -/

/-- `tg::Message` (tg/types.hpp:117–124), restricted to the fields the
render pipeline consults; the composite key is `(chat_id, id)`. -/
structure TgMessage where
  id : Int
  chat_id : Int
  sender_id : Int
  timestamp : Int
  text : String
  is_outgoing : Bool
  deriving Repr, DecidableEq

/-- One step of the insertion sort modelling the
`std::sort(..., a.timestamp < b.timestamp)` calls
(telegram_provider.cpp:1700–1702); a stable refinement of the
unstable `std::sort`. -/
def insertByTs (m : TgMessage) : List TgMessage → List TgMessage
  | [] => [m]
  | x :: xs => if m.timestamp < x.timestamp then m :: x :: xs else x :: insertByTs m xs

/-- Sort messages ascending by timestamp (oldest first). -/
def sortByTs (ms : List TgMessage) : List TgMessage := ms.foldr insertByTs []

/-- `CacheManager::cache_message` (tg/cache.cpp:406–471): `INSERT OR
REPLACE` into the `messages` table, whose primary key is
`(chat_id, id)` (tg/cache.cpp:99–116). -/
def cache_message (db : List TgMessage) (m : TgMessage) : List TgMessage :=
  db.filter (fun r => ¬ (r.chat_id = m.chat_id ∧ r.id = m.id)) ++ [m]

/-- Ingest a batch: the persistence loop at
telegram_provider.cpp:1695–1697 (also `cache_messages`,
tg/cache.cpp:473–477). -/
def ingest (db : List TgMessage) (ms : List TgMessage) : List TgMessage :=
  ms.foldl cache_message db

/-- Modelled from the spec: `CacheManager::get_messages_for_display`
is declared at include/tg/cache.hpp:78 but its SQL body is not among
the sources.  Spec §4.2: "returns all messages for the chat with
`ts ≥ now − max_age_s`, sorted ascending by ts (oldest first)". -/
def get_messages_for_display (db : List TgMessage) (chat_id : Int)
    (max_age now : Int) : List TgMessage :=
  sortByTs (db.filter (fun m => m.chat_id = chat_id ∧ now - max_age ≤ m.timestamp))

/-- The sequence of messages rendered into the `messages` content by
`format_and_cache_messages` (telegram_provider.cpp:1802–1841): the
loop at lines 1814–1824 appends exactly one template block per
element of the input list, in order, with no deduplication step, so
the occurrences of a `(chat_id, id)` pair in the content are the
occurrences in this sequence.  On the API fetch path
(telegram_provider.cpp:1689–1705) the input is the fetched batch
sorted by timestamp. -/
def renderedSeqApi (fetched : List TgMessage) : List TgMessage :=
  sortByTs fetched

/-- The rendered message sequence on the SQLite path
(telegram_provider.cpp:1678–1686): the display list is rendered
as-is. -/
def renderedSeqDb (db : List TgMessage) (chat_id : Int) (max_age now : Int) :
    List TgMessage :=
  get_messages_for_display db chat_id max_age now

/-! ## Background prefetcher (src/fuse/background_prefetcher.cpp) -/

/-- `tg::ChatMessageStats` (tg/cache.hpp:16–23). -/
structure ChatMessageStats where
  chat_id : Int := 0
  message_count : Nat := 0
  content_size : Nat := 0
  last_message_time : Int := 0
  last_fetch_time : Int := 0
  oldest_message_time : Int := 0
  deriving Repr, DecidableEq

/-- `BackgroundPrefetcherConfig` (background_prefetcher.hpp:23–29);
durations in seconds. -/
structure PrefetcherConfig where
  prefetch_interval : Int := 300
  min_messages : Nat := 10
  deriving Repr, DecidableEq

/-- `BackgroundPrefetcher::needs_fetch`
(background_prefetcher.cpp:233–252). -/
def needs_fetch (stats : Option ChatMessageStats) (now : Int)
    (cfg : PrefetcherConfig) : Bool :=
  match stats with
  | none => true
  | some s =>
    if s.message_count < cfg.min_messages then true
    else if now - s.last_fetch_time > cfg.prefetch_interval then true
    else false

/-- The database view the scan consults:
`get_all_cached_users()` (tg/cache.cpp:234, SQL `ORDER BY username`)
and `get_cached_chats_by_type` (tg/cache.cpp:377, SQL `ORDER BY
last_message_timestamp DESC`). -/
structure DbView where
  users : List TgUser
  groups : List TgChat
  channels : List TgChat
  deriving Repr, DecidableEq

/-- One step of the insertion sort modelling
`std::sort(..., a.last_message_timestamp > b.last_message_timestamp)`
(background_prefetcher.cpp:198–202); a stable refinement of the
unstable `std::sort`. -/
def insertUserDesc (u : TgUser) : List TgUser → List TgUser
  | [] => [u]
  | x :: xs =>
    if u.last_message_timestamp > x.last_message_timestamp then u :: x :: xs
    else x :: insertUserDesc u xs

/-- Sort users by last-message timestamp, newest first. -/
def sortUsersByTsDesc (us : List TgUser) : List TgUser :=
  us.foldr insertUserDesc []

/-- `BackgroundPrefetcher::get_chats_to_fetch`
(background_prefetcher.cpp:180–231): contacts (ts desc), then
non-contacts (ts desc), then groups, then channels (the latter two in
query order, ts desc). -/
def get_chats_to_fetch (db : DbView) : List Int :=
  (sortUsersByTsDesc (db.users.filter (fun u => u.is_contact))).map (fun u => u.id) ++
  (sortUsersByTsDesc (db.users.filter (fun u => ¬ u.is_contact))).map (fun u => u.id) ++
  db.groups.map (fun g => g.id) ++
  db.channels.map (fun c => c.id)

/-- `PrefetchPriority::LOW` (background_prefetcher.hpp:20). -/
def PRIORITY_LOW : Nat := 2

/-- A queue entry `(priority, −enqueue_time, chat_id)`
(background_prefetcher.hpp:102–105 with the `emplace` at
background_prefetcher.cpp:88, which stores `-std::time(nullptr)`). -/
def QEntry := Nat × Int × Int
deriving instance Repr, DecidableEq for QEntry

/-- Lexicographic order on queue entries: `std::priority_queue` with
`std::greater<>` pops the least tuple first. -/
def qLE (a b : QEntry) : Bool :=
  a.1 < b.1 || (a.1 = b.1 &&
    (a.2.1 < b.2.1 || (a.2.1 = b.2.1 && a.2.2 ≤ b.2.2)))

/-- Insert an entry into an ascending list (heap-drain model). -/
def insertQ (e : QEntry) : List QEntry → List QEntry
  | [] => [e]
  | x :: xs => if qLE e x then e :: x :: xs else x :: insertQ e xs

/-- Popping every element of the priority queue yields the entries in
ascending `(priority, −time, chat_id)` order. -/
def drainQueue (q : List QEntry) : List QEntry := q.foldr insertQ []

/-- The entries enqueued by the empty-queue scan of `prefetch_loop`
(background_prefetcher.cpp:85–91): every chat of the enumeration, at
`LOW` priority, stamped with the (negated) current time. -/
def scan_enqueue (db : DbView) (now : Int) : List QEntry :=
  (get_chats_to_fetch db).map (fun id => (PRIORITY_LOW, -now, id))

/-- The chats fetched by the loop after an empty-queue scan
(background_prefetcher.cpp:94–104): pop entries in queue order and
fetch each whose `needs_fetch` is true. -/
def prefetch_round (db : DbView) (now : Int)
    (stats : Int → Option ChatMessageStats) (cfg : PrefetcherConfig) : List Int :=
  ((drainQueue (scan_enqueue db now)).map (fun e => e.2.2)).filter
    (fun id => needs_fetch (stats id) now cfg)

/-! ## Claim C1 — `messages` write policy -/

/-- **C1.** For every write to a chat's `messages` file, with `C` the
formatted-message cache's content size for that chat (0 if the chat
is absent from the cache): if `C = 0` the whole buffer is treated as
new content and handed to the send path; if `offset = 0` and
`size > C`, exactly the suffix `data[C..size]` is handed to the send
path; if `offset > C` the bytes are accepted (the write returns
`size`) and nothing is sent; if the write lies within the existing
content (`offset ≤ C`, remaining case) the bytes are accepted and
nothing is sent.  The last two conjuncts tie `C` to
`get_content_size` through the provider-level `write_file` and record
that an absent chat has `C = 0`. -/
theorem c1_messages_write_policy (C : Nat) (data : List Nat) (offset : Nat) :
    (C = 0 → write_file_messages C data offset = send_message data) ∧
    (0 < C → offset = 0 → C < data.length →
      write_file_messages C data offset = send_message (data.drop C)) ∧
    (0 < C → C < offset →
      write_file_messages C data offset = (⟨true, data.length, ""⟩, [])) ∧
    (0 < C → offset ≤ C → ¬ (offset = 0 ∧ C < data.length) →
      write_file_messages C data offset = (⟨true, data.length, ""⟩, [])) ∧
    (∀ (env : EntityDir) (cache : CacheState) (path : String),
      is_messages_path (parse_path path).category = true →
      get_chat_id_from_path env (parse_path path) ≠ 0 →
      write_file env cache path data offset =
        write_file_messages
          (get_content_size cache (get_chat_id_from_path env (parse_path path)))
          data offset) ∧
    (∀ (cache : CacheState) (chat : Int),
      cache.entries.lookup chat = none → get_content_size cache chat = 0) := by
  refine ⟨?_, ?_, ?_, ?_, ?_, ?_⟩
  · intro h
    simp [write_file_messages, h]
  · intro h0 hoff hlen
    rw [write_file_messages, if_neg (by omega), if_pos ⟨hoff, hlen⟩]
  · intro h0 hoff
    rw [write_file_messages, if_neg (by omega), if_neg (by omega), if_pos hoff]
  · intro h0 hoff hnot
    rw [write_file_messages, if_neg (by omega), if_neg (by simpa using hnot),
      if_neg (by omega)]
  · intro env cache path hmsg hchat
    rw [write_file, if_neg (by simp [hmsg]), if_neg hchat]
  · intro cache chat h
    simp [get_content_size, h]

/-- C1 witness: the four branches at concrete inputs. -/
theorem c1_messages_write_policy_witness :
    write_file_messages 0 [104, 105] 0 = send_message [104, 105] ∧
    write_file_messages 2 [104, 105, 106] 0 = send_message ([104, 105, 106].drop 2) ∧
    write_file_messages 2 [104] 5 = (⟨true, 1, ""⟩, []) ∧
    write_file_messages 2 [104] 1 = (⟨true, 1, ""⟩, []) :=
  ⟨(c1_messages_write_policy 0 [104, 105] 0).1 rfl,
   (c1_messages_write_policy 2 [104, 105, 106] 0).2.1 (by decide) rfl (by decide),
   (c1_messages_write_policy 2 [104] 5).2.2.1 (by decide) (by decide),
   (c1_messages_write_policy 2 [104] 1).2.2.2.1 (by decide) (by decide) (by decide)⟩

/-! ## Claim C2 — binary writes are rejected before any send -/

/-- The claim's description of invalid text: a NUL byte, or more than
5% non-printable control bytes (strictly more than one for buffers
under 20 bytes).  "More than 5%" is `np/size > 1/20` over the
rationals, i.e. `size < 20 * np`. -/
def specInvalidText (s : List Nat) : Bool :=
  s.contains 0 ||
    (if s.length < 20 then decide (1 < s.countP isCtrlByte)
     else decide (s.length < 20 * s.countP isCtrlByte))

/-- **C2.** For every write to a `messages` file whose candidate
content (the slice selected by the §4.5 policy) is not valid text —
equivalently, per the source's `is_valid_text`: it contains a NUL
byte, or more than 5% of its bytes are non-printable controls
excluding tab/LF/CR, with more than one such byte for inputs under 20
bytes — the write fails, is surfaced to FUSE as `-EIO`, and no
`send_text` submission is made for any part of the buffer. -/
theorem c2_binary_write_rejected (C : Nat) (data : List Nat) (offset : Nat)
    (s : List Nat) (hc : messagesWriteCandidate C data offset = some s) :
    (is_valid_text s = false ↔ specInvalidText s = true) ∧
    (specInvalidText s = true →
      write_file_messages C data offset =
        (⟨false, 0, "Binary data not allowed"⟩, []) ∧
      operations_write_ret (write_file_messages C data offset).1 = - EIO) := by
  have hiff : is_valid_text s = false ↔ specInvalidText s = true := by
    rw [is_valid_text, specInvalidText]
    by_cases h0 : s.length = 0
    · have hs : s = [] := List.length_eq_zero.mp h0
      subst hs
      simp
    · rw [if_neg h0]
      by_cases hz : s.contains 0
      · rw [if_pos hz, hz]
        simp
      · rw [if_neg hz]
        simp only [hz, Bool.false_or]
        rw [decide_eq_false_iff_not, Nat.not_le]
        by_cases hlen : s.length < 20
        · simp [hlen]
        · rw [if_neg hlen, if_neg hlen, decide_eq_true_eq]
          omega
  refine ⟨hiff, ?_⟩
  intro hinv
  have hvalid : is_valid_text s = false := hiff.mpr hinv
  have hsize : s.length ≠ 0 := by
    intro h
    rw [List.length_eq_zero.mp h] at hvalid
    simp [is_valid_text] at hvalid
  have hsend : send_message s = (⟨false, 0, "Binary data not allowed"⟩, []) := by
    rw [send_message, if_neg hsize]
    simp [hvalid]
  have hwrite : write_file_messages C data offset = send_message s := by
    rw [messagesWriteCandidate] at hc
    rw [write_file_messages]
    by_cases h1 : C = 0
    · rw [if_pos h1] at hc ⊢
      simp only [Option.some_inj] at hc
      rw [hc]
    · rw [if_neg h1] at hc ⊢
      by_cases h2 : offset = 0 ∧ data.length > C
      · rw [if_pos h2] at hc ⊢
        simp only [Option.some_inj] at hc
        rw [hc]
      · rw [if_neg h2] at hc
        simp at hc
  rw [hwrite, hsend]
  exact ⟨rfl, by simp [operations_write_ret]⟩

/-- C2 witness: the spec's own scenario — writing
`"\x00\x01\x02\x03"` at offset 0 with an empty cache. -/
theorem c2_binary_write_rejected_witness :
    write_file_messages 0 [0, 1, 2, 3] 0 =
      (⟨false, 0, "Binary data not allowed"⟩, []) ∧
    operations_write_ret (write_file_messages 0 [0, 1, 2, 3] 0).1 = - EIO :=
  (c2_binary_write_rejected 0 [0, 1, 2, 3] 0 [0, 1, 2, 3] rfl).2 (by decide)

/-! ## Claim C3 — trimming, no-op on empty, bounded ordered chunks -/

/-- **C3.** For every valid-text buffer accepted for sending:
trailing LF/CR bytes are trimmed; if the trimmed text is empty the
write succeeds (returning the full size) without submitting anything;
otherwise the submitted chunk sequence is `split_message` of the
trimmed text, every chunk is at most 4096 bytes, and the chunks
concatenate back to the trimmed text up to the single whitespace byte
removed at each split point (`Joins`).  The chunk list in the result
is the submission order. -/
theorem c3_send_trims_and_splits (data : List Nat)
    (hv : is_valid_text data = true) :
    send_message data =
      (⟨true, data.length, ""⟩, split_message (trimTrailingNewlines data)) ∧
    (trimTrailingNewlines data = [] →
      (send_message data).2 = []) ∧
    (∀ c ∈ (send_message data).2, c.length ≤ chunkLimit) ∧
    Joins ((send_message data).2) (trimTrailingNewlines data) := by
  have heq : send_message data =
      (⟨true, data.length, ""⟩, split_message (trimTrailingNewlines data)) := by
    rw [send_message]
    by_cases h0 : data.length = 0
    · have hd : data = [] := List.length_eq_zero.mp h0
      subst hd
      simp [trimTrailingNewlines, split_message, splitGo]
    · rw [if_neg h0, if_neg (by simp [hv])]
      by_cases ht : trimTrailingNewlines data = []
      · rw [if_pos ht, ht]
        simp [split_message, splitGo]
      · rw [if_neg ht]
  refine ⟨heq, ?_, ?_, ?_⟩
  · intro ht
    rw [heq, ht]
    simp [split_message, splitGo]
  · rw [heq]
    exact split_message_chunk_le (trimTrailingNewlines data)
  · rw [heq]
    exact split_message_joins (trimTrailingNewlines data)

/-- C3 witness: the theorem instantiated at the buffer `"hi\n"` — the
trailing LF is trimmed and the single remaining chunk `"hi"` is
submitted. -/
theorem c3_send_trims_and_splits_witness :
    is_valid_text [104, 105, 10] = true ∧
    send_message [104, 105, 10] = (⟨true, 3, ""⟩, [[104, 105]]) ∧
    (∀ c ∈ (send_message [104, 105, 10]).2, c.length ≤ chunkLimit) ∧
    Joins ((send_message [104, 105, 10]).2)
      (trimTrailingNewlines [104, 105, 10]) := by
  have h := c3_send_trims_and_splits [104, 105, 10] (by decide)
  refine ⟨by decide, ?_, h.2.2.1, h.2.2.2⟩
  rw [h.1]
  decide

/-! ## Claim C4 — formatted cache TTL (code bug)

The header documents `get` as returning "nullopt if not cached or TTL
expired" (messages_cache.hpp:61–64) and declares `formatted_at` as
the TTL reference (messages_cache.hpp:51) with the class doc "entries
expire after format_ttl" (messages_cache.hpp:37), but the
implementation of `get` (messages_cache.cpp:38–50) never reads the
clock and never consults `formatted_at`/`format_ttl`: a present entry
is returned no matter how old it is.  The state below holds one entry
stamped `formatted_at = 0`; at any `now > 3600` (the default
`format_ttl`) the claim requires `get` to return None. -/

/-- A cache holding chat 1, formatted at steady-clock second 0. -/
def ttlExpiredState : CacheState :=
  { entries := [(1, { content := "hello", message_count := 1,
                      newest_message_id := 5, formatted_at := 0 })] }

/-- **C4** (evaluation at the failing input).  With the default
config's `format_ttl = 3600` and the entry's `formatted_at = 0`, a
`get` at time 3601 — or any other time, since `get` takes no clock —
still returns the content, bumps the hit counter and touches the
entry to MRU, where the claim requires None after TTL expiry. -/
theorem c4_get_ignores_ttl :
    ({} : MessagesCacheConfig).format_ttl = 3600 ∧
    3600 < 3601 - (0 : Nat) ∧
    (cache_get ttlExpiredState 1).1 = some "hello" ∧
    (cache_get ttlExpiredState 1).2.hit_count = 1 ∧
    (cache_get ttlExpiredState 1).2.entries.lookup 1 =
      some { content := "hello", message_count := 1,
             newest_message_id := 5, formatted_at := 0 } := by
  refine ⟨rfl, by omega, ?_, ?_, ?_⟩ <;> rfl

/-! ## Claim C7 — truncate dispatch -/

/-- **C7 counterexample.** `/users/alice/report.pdf` parses as a
pending-upload path (`USER_UPLOAD`), yet `truncate_file` — whose only
inputs are the path and the size; it consults no upload state —
returns `-EACCES` instead of resizing the temp file (a resize would
return 0). -/
theorem c7_truncate_counterexample :
    (parse_path "/users/alice/report.pdf").category = .USER_UPLOAD ∧
    is_upload_path (parse_path "/users/alice/report.pdf").category = true ∧
    truncate_file "/users/alice/report.pdf" 0 = -EACCES ∧
    truncate_file "/users/alice/report.pdf" 100 = -EACCES ∧
    -EACCES ≠ (0 : Int) := by
  refine ⟨?_, ?_, ?_, ?_, by decide⟩ <;> decide

/-- **C7 amended.** Truncate on a `messages` file succeeds as a no-op
when the requested size is 0 and returns `-EPERM` for any other size;
truncate on every other path — including pending-upload paths, which
are not resized — returns `-EACCES`. -/
theorem c7_truncate_amended (path : String) (size : Int) :
    (is_messages_path (parse_path path).category = true →
      truncate_file path size = if size = 0 then 0 else -EPERM) ∧
    (is_messages_path (parse_path path).category = false →
      truncate_file path size = -EACCES) ∧
    (is_upload_path (parse_path path).category = true →
      truncate_file path size = -EACCES) := by
  have hdisj : ∀ c : PathCategory,
      is_upload_path c = true → is_messages_path c = false := by
    intro c
    cases c <;> decide
  refine ⟨?_, ?_, ?_⟩
  · intro h
    rw [truncate_file]
    simp only [h, if_true]
  · intro h
    rw [truncate_file]
    simp only [h, Bool.false_eq_true, if_false]
  · intro h
    rw [truncate_file]
    simp only [hdisj _ h, Bool.false_eq_true, if_false]

/-- C7 witness: the amended theorem at concrete paths and sizes. -/
theorem c7_truncate_amended_witness :
    truncate_file "/users/alice/messages" 0 = 0 ∧
    truncate_file "/users/alice/messages" 7 = -EPERM ∧
    truncate_file "/users/alice/files/report.pdf" 0 = -EACCES := by
  refine ⟨?_, ?_, ?_⟩
  · have h := (c7_truncate_amended "/users/alice/messages" 0).1 (by decide)
    simpa using h
  · have h := (c7_truncate_amended "/users/alice/messages" 7).1 (by decide)
    simpa using h
  · exact (c7_truncate_amended "/users/alice/files/report.pdf" 0).2.2 (by decide)

/-! ## Claim C10 — read bounds -/

/-- **C10.** For every readable file content and every read: if the
offset is at or beyond the content length, read returns 0 (EOF — a
non-negative result, not an error) and copies nothing; if the offset
is within the content, read returns exactly
`min(size, length − offset)` and copies exactly those content bytes
starting at the offset. -/
theorem c10_read_bounds (content : FileContent) (size offset : Nat)
    (h : content.readable = true) :
    (offset ≥ content.data.length →
      operations_read content size offset = (0, [])) ∧
    (offset < content.data.length →
      operations_read content size offset =
        (((min size (content.data.length - offset) : Nat) : Int),
         (content.data.drop offset).take (min size (content.data.length - offset))) ∧
      (operations_read content size offset).2.length =
        min size (content.data.length - offset)) ∧
    0 ≤ (operations_read content size offset).1 := by
  have hne : ¬ content.readable = false := by simp [h]
  refine ⟨?_, ?_, ?_⟩
  · intro hoff
    rw [operations_read, if_neg (by simp [h]), if_pos hoff]
  · intro hoff
    have heq : operations_read content size offset =
        (((min size (content.data.length - offset) : Nat) : Int),
         (content.data.drop offset).take (min size (content.data.length - offset))) := by
      rw [operations_read, if_neg (by simp [h]), if_neg (by omega)]
    refine ⟨heq, ?_⟩
    rw [heq]
    simp only [List.length_take, List.length_drop]
    omega
  · rw [operations_read, if_neg (by simp [h])]
    by_cases hoff : offset ≥ content.data.length
    · rw [if_pos hoff]
    · rw [if_neg hoff]
      simp

/-- C10 witness: a 3-byte readable file read at offset 1 with size 2,
and at offset 5 (EOF). -/
theorem c10_read_bounds_witness :
    operations_read ⟨[1, 2, 3], true⟩ 2 5 = (0, []) ∧
    operations_read ⟨[1, 2, 3], true⟩ 2 1 = (2, [2, 3]) := by
  refine ⟨(c10_read_bounds ⟨[1, 2, 3], true⟩ 2 5 rfl).1 (by decide), ?_⟩
  have h := ((c10_read_bounds ⟨[1, 2, 3], true⟩ 2 1 rfl).2.1 (by decide)).1
  rw [h]
  decide

/-! ## Claim C5 — message dedup in the rendered content -/

/-- The composite message key `(chat_id, id)` (spec §3.1; the
`messages` table primary key, tg/cache.cpp:115). -/
def msgKey (m : TgMessage) : Int × Int := (m.chat_id, m.id)

theorem insertByTs_perm (m : TgMessage) (l : List TgMessage) :
    (insertByTs m l).Perm (m :: l) := by
  induction l with
  | nil => exact List.Perm.refl _
  | cons x xs ih =>
    rw [insertByTs]
    split
    · exact List.Perm.refl _
    · exact List.Perm.trans (List.Perm.cons x ih) (List.Perm.swap m x xs)

theorem sortByTs_perm (l : List TgMessage) : (sortByTs l).Perm l := by
  induction l with
  | nil => exact List.Perm.refl _
  | cons x xs ih =>
    exact List.Perm.trans (insertByTs_perm x (sortByTs xs)) (List.Perm.cons x ih)

theorem countP_filter_le (p q : TgMessage → Bool) (l : List TgMessage) :
    (l.filter q).countP p ≤ l.countP p := by
  induction l with
  | nil => simp
  | cons x xs ih =>
    by_cases hq : q x
    · rw [List.filter_cons_of_pos hq]
      by_cases hp : p x
      · rw [List.countP_cons_of_pos _ _ hp, List.countP_cons_of_pos _ _ hp]
        omega
      · rw [List.countP_cons_of_neg _ _ hp, List.countP_cons_of_neg _ _ hp]
        exact ih
    · rw [List.filter_cons_of_neg hq]
      by_cases hp : p x
      · rw [List.countP_cons_of_pos _ _ hp]
        omega
      · rw [List.countP_cons_of_neg _ _ hp]
        exact ih

theorem cache_message_nodup (db : List TgMessage) (m : TgMessage)
    (h : (db.map msgKey).Nodup) :
    ((cache_message db m).map msgKey).Nodup := by
  rw [cache_message, List.map_append, List.nodup_append]
  refine ⟨?_, by simp, ?_⟩
  · exact List.Nodup.sublist
      (List.Sublist.map msgKey (List.filter_sublist db)) h
  · intro k hk
    simp only [List.map_cons, List.map_nil, List.mem_singleton]
    rcases List.mem_map.mp hk with ⟨r, hr, hkey⟩
    rcases List.mem_filter.mp hr with ⟨_, hcond⟩
    intro hkm
    rw [← hkey] at hkm
    have : r.chat_id = m.chat_id ∧ r.id = m.id := by
      have := congrArg Prod.fst hkm
      have := congrArg Prod.snd hkm
      exact ⟨by assumption, by assumption⟩
    simp only [decide_eq_true_eq] at hcond
    exact hcond this

theorem ingest_nodup (db : List TgMessage) (ms : List TgMessage)
    (h : (db.map msgKey).Nodup) :
    ((ingest db ms).map msgKey).Nodup := by
  induction ms generalizing db with
  | nil => exact h
  | cons x xs ih => exact ih (cache_message db x) (cache_message_nodup db x h)

theorem nodup_countP_le_one {α : Type} [BEq α] [LawfulBEq α] (l : List α) (k : α)
    (h : l.Nodup) : l.countP (fun x => x == k) ≤ 1 := by
  induction l with
  | nil => simp
  | cons x xs ih =>
    rcases List.nodup_cons.mp h with ⟨hx, hxs⟩
    by_cases hxk : x = k
    · subst hxk
      rw [List.countP_cons_of_pos _ _ (by simp)]
      have hz : xs.countP (fun y => y == x) = 0 := by
        rw [List.countP_eq_zero]
        intro a ha
        simp only [beq_iff_eq]
        intro he
        rw [he] at ha
        exact hx ha
      omega
    · rw [List.countP_cons_of_neg _ _ (by simp [hxk])]
      exact ih hxs

theorem msg_countP_key (l : List TgMessage) (k : Int × Int) :
    l.countP (fun m => msgKey m == k) =
      (l.map msgKey).countP (fun x => x == k) := by
  rw [List.countP_map]
  rfl

/-- The duplicated message of the C5 counterexample. -/
def dupMsg : TgMessage :=
  { id := 1, chat_id := 1, sender_id := 2, timestamp := 5,
    text := "hi", is_outgoing := false }

/-- **C5 counterexample.** Feeding the render pipeline the very same
message twice — a fetched batch containing `(chat_id, id) = (1, 1)`
as a duplicate — produces a rendered sequence in which the pair
occurs twice: the pipeline cited by the claim
(`fetch_and_format_messages` → `format_and_cache_messages`) sorts by
timestamp but contains no deduplication step, so the rendered content
holds one block per occurrence. -/
theorem c5_dedup_counterexample :
    (renderedSeqApi [dupMsg, dupMsg]).countP (fun m => msgKey m == (1, 1)) = 2 ∧
    renderedSeqApi [dupMsg, dupMsg] = [dupMsg, dupMsg] := by
  exact ⟨by decide, by decide⟩

/-- **C5 amended.** Rendering sorts messages ascending by timestamp
but does not deduplicate: the rendered sequence contains each
`(chat_id, id)` exactly as often as the input list does (first
conjunct), so a fetched batch with a repeated pair is rendered twice.
What does hold: ingesting any multiset through the durable store
(`INSERT OR REPLACE` keyed by `(chat_id, id)`) keeps the store's keys
unique (second conjunct), so content rendered from the store —
`get_messages_for_display` followed by the same block loop — contains
each distinct `(chat_id, id)` at most once (third conjunct). -/
theorem c5_render_dedup_amended (db ms : List TgMessage)
    (chat max_age now : Int) (k : Int × Int)
    (hdb : (db.map msgKey).Nodup) :
    (renderedSeqApi ms).countP (fun m => msgKey m == k) =
      ms.countP (fun m => msgKey m == k) ∧
    ((ingest db ms).map msgKey).Nodup ∧
    (renderedSeqDb (ingest db ms) chat max_age now).countP
      (fun m => msgKey m == k) ≤ 1 := by
  refine ⟨List.Perm.countP_eq _ (sortByTs_perm ms), ingest_nodup db ms hdb, ?_⟩
  rw [renderedSeqDb, get_messages_for_display]
  rw [List.Perm.countP_eq _ (sortByTs_perm _)]
  calc ((ingest db ms).filter
        (fun m => m.chat_id = chat ∧ now - max_age ≤ m.timestamp)).countP
          (fun m => msgKey m == k)
      ≤ (ingest db ms).countP (fun m => msgKey m == k) :=
        countP_filter_le _ _ _
    _ ≤ 1 := by
        rw [msg_countP_key]
        exact nodup_countP_le_one _ k (ingest_nodup db ms hdb)

/-- C5 witness for the amended theorem: ingesting the duplicate batch
into an empty store leaves unique keys, and the store-rendered
sequence holds the pair `(1, 1)` at most once. -/
theorem c5_render_dedup_amended_witness :
    ((ingest [] [dupMsg, dupMsg]).map msgKey).Nodup ∧
    (renderedSeqDb (ingest [] [dupMsg, dupMsg]) 1 100 50).countP
      (fun m => msgKey m == (1, 1)) ≤ 1 := by
  have h := c5_render_dedup_amended [] [dupMsg, dupMsg] 1 100 50 (1, 1)
    (by simp)
  exact ⟨h.2.1, h.2.2⟩

/-! ## Claim C6 — prefetch scan order vs. pop order -/

/-- Contact A of the claim's scenario: older message (ts = T). -/
def userA : TgUser :=
  { id := 2, username := "a", is_contact := true, last_message_timestamp := 100 }

/-- Non-contact B of the claim's scenario: newer message (ts = T+10). -/
def userB : TgUser :=
  { id := 1, username := "b", is_contact := false, last_message_timestamp := 110 }

/-- The stats view of the scenario. -/
def dbAB : DbView := { users := [userA, userB], groups := [], channels := [] }

/-- **C6 counterexample.** The empty-queue scan enqueues contact A
(id 2) before non-contact B (id 1), as the claim says — but the
entries are popped from the priority queue in ascending
`(priority, −enqueue_time, chat_id)` order, and since the whole scan
shares priority Low and one enqueue timestamp, the tie-break is the
chat id: B (id 1) is fetched before A (id 2), not "in that same
order". -/
theorem c6_prefetch_order_counterexample :
    get_chats_to_fetch dbAB = [2, 1] ∧
    prefetch_round dbAB 1000 (fun _ => none) {} = [1, 2] := by
  exact ⟨by decide, by decide⟩

/-- Ascending insertion sort on chat ids (the effective pop order of
same-priority, same-timestamp queue entries). -/
def insertIntAsc (x : Int) : List Int → List Int
  | [] => [x]
  | y :: ys => if x ≤ y then x :: y :: ys else y :: insertIntAsc x ys

/-- Sort chat ids ascending. -/
def sortIntAsc (l : List Int) : List Int := l.foldr insertIntAsc []

theorem qLE_const (p : Nat) (t : Int) (a b : Int) :
    qLE (p, t, a) (p, t, b) = decide (a ≤ b) := by
  simp [qLE]

theorem insertQ_const_map (p : Nat) (t : Int) (x : Int) (l : List Int) :
    insertQ (p, t, x) (l.map (fun id => (p, t, id))) =
      (insertIntAsc x l).map (fun id => (p, t, id)) := by
  induction l with
  | nil => rfl
  | cons y ys ih =>
    simp only [List.map_cons, insertQ, insertIntAsc, qLE_const]
    by_cases h : x ≤ y
    · rw [if_pos (by simpa using h), if_pos h]
      simp
    · rw [if_neg (by simpa using h), if_neg h]
      simp [ih]

theorem drainQueue_const_map (p : Nat) (t : Int) (l : List Int) :
    drainQueue (l.map (fun id => (p, t, id))) =
      (sortIntAsc l).map (fun id => (p, t, id)) := by
  induction l with
  | nil => rfl
  | cons x xs ih =>
    simp only [List.map_cons, drainQueue, List.foldr_cons, sortIntAsc]
    rw [show (List.foldr insertQ [] (xs.map (fun id => (p, t, id)))) =
        drainQueue (xs.map (fun id => (p, t, id))) from rfl, ih]
    exact insertQ_const_map p t x (xs.foldr insertIntAsc [])

/-- **C6 amended.** On interval expiry with an empty queue, all chats
are enqueued at Low priority in the order contacts (ts desc), then
non-contact users (ts desc), then groups, then channels —
`get_chats_to_fetch` — each entry carrying the same priority and the
same (negated) enqueue timestamp; the loop then pops entries in
ascending `(priority, −enqueue_time, chat_id)` order and fetches the
ones `needs_fetch` approves, so the fetch order is the *ascending
chat-id* reordering of the enumeration, not the enumeration order
itself. -/
theorem c6_prefetch_order_amended (db : DbView) (now : Int)
    (stats : Int → Option ChatMessageStats) (cfg : PrefetcherConfig) :
    scan_enqueue db now =
      (get_chats_to_fetch db).map (fun id => (PRIORITY_LOW, -now, id)) ∧
    prefetch_round db now stats cfg =
      (sortIntAsc (get_chats_to_fetch db)).filter
        (fun id => needs_fetch (stats id) now cfg) := by
  refine ⟨rfl, ?_⟩
  rw [prefetch_round, scan_enqueue, drainQueue_const_map, List.map_map]
  rw [show ((fun e : QEntry => e.2.2) ∘ (fun id : Int => (PRIORITY_LOW, -now, id)))
      = id from rfl]
  rw [List.map_id]

/-! ## Claim C8 — upload creation: media validation and send modes -/

theorem pathcat_media_facts (c : PathCategory)
    (h : (is_media_dir_path c || is_media_path c) = true) :
    is_upload_path c = true ∧ is_files_dir_path c = false ∧
      is_file_path c = false := by
  cases c <;> revert h <;> decide

theorem pathcat_files_facts (c : PathCategory)
    (h : (is_files_dir_path c || is_file_path c) = true) :
    is_upload_path c = true := by
  cases c <;> revert h <;> decide

theorem pathcat_files_not_media (c : PathCategory)
    (h : (is_files_dir_path c || is_file_path c) = true) :
    (is_media_dir_path c || is_media_path c) = false := by
  cases c <;> revert h <;> decide

theorem pathcat_upload_facts (c : PathCategory)
    (h : c = .USER_UPLOAD ∨ c = .GROUP_UPLOAD ∨ c = .CHANNEL_UPLOAD) :
    is_upload_path c = true ∧ is_files_dir_path c = false ∧
      is_file_path c = false ∧ is_media_dir_path c = false ∧
      is_media_path c = false := by
  cases c <;> revert h <;> decide

/-- The record stored for a successful `create_file`
(telegram_provider.cpp:2146–2172). -/
def createdUpload (env : EntityDir) (st : UploadsState) (tmpdir path : String)
    (mode : SendMode) : PendingUpload :=
  { temp_path := tmpdir ++ "/tg-fuse/uploads/" ++ toString st.next_handle ++ "_" ++
      extract_original_filename (parse_path path).file_entry_name,
    original_filename := extract_original_filename (parse_path path).file_entry_name,
    virtual_path := path,
    chat_id := get_chat_id_for_upload env (parse_path path),
    mode := mode }

theorem create_file_success_eq (env : EntityDir) (st : UploadsState)
    (tmpdir path : String)
    (hup : is_upload_path (parse_path path).category = true)
    (hchat : get_chat_id_for_upload env (parse_path path) ≠ 0)
    (hnoinval : ((is_media_dir_path (parse_path path).category ||
        is_media_path (parse_path path).category) &&
        ! is_valid_media_extension (parse_path path).file_entry_name) = false) :
    create_file env st tmpdir path =
      (0, st.next_handle,
        { pending := st.pending ++
            [(st.next_handle, createdUpload env st tmpdir path
              (if is_files_dir_path (parse_path path).category ||
                  is_file_path (parse_path path).category then
                SendMode.DOCUMENT
              else if is_media_dir_path (parse_path path).category ||
                  is_media_path (parse_path path).category then
                SendMode.MEDIA
              else SendMode.AUTO))],
          next_handle := st.next_handle + 1 }) := by
  rw [create_file]
  rw [if_neg (by simp [hup])]
  rw [if_neg hchat]
  rw [if_neg (by simp [hnoinval])]
  rfl

/-- **C8.** For every `create` on a path under a chat's `media/`
directory whose filename extension (lower-cased) is not in the fixed
image/video allow-list, the call returns `-EINVAL` with the upload
state untouched (the temp directory, temp file and pending record
are only created after the check passes); with an allowed extension
the recorded send mode is `MEDIA`; for `files/` paths it is
`DOCUMENT`; for a bare chat-directory path (`*_UPLOAD`) it is
`AUTO`. -/
theorem c8_create_upload_modes (env : EntityDir) (st : UploadsState)
    (tmpdir path : String)
    (hchat : get_chat_id_for_upload env (parse_path path) ≠ 0) :
    ((is_media_dir_path (parse_path path).category ||
        is_media_path (parse_path path).category) = true →
      is_valid_media_extension (parse_path path).file_entry_name = false →
      create_file env st tmpdir path = (-EINVAL, 0, st)) ∧
    ((is_media_dir_path (parse_path path).category ||
        is_media_path (parse_path path).category) = true →
      is_valid_media_extension (parse_path path).file_entry_name = true →
      create_file env st tmpdir path =
        (0, st.next_handle,
          { pending := st.pending ++ [(st.next_handle,
              createdUpload env st tmpdir path SendMode.MEDIA)],
            next_handle := st.next_handle + 1 })) ∧
    ((is_files_dir_path (parse_path path).category ||
        is_file_path (parse_path path).category) = true →
      create_file env st tmpdir path =
        (0, st.next_handle,
          { pending := st.pending ++ [(st.next_handle,
              createdUpload env st tmpdir path SendMode.DOCUMENT)],
            next_handle := st.next_handle + 1 })) ∧
    (((parse_path path).category = .USER_UPLOAD ∨
      (parse_path path).category = .GROUP_UPLOAD ∨
      (parse_path path).category = .CHANNEL_UPLOAD) →
      create_file env st tmpdir path =
        (0, st.next_handle,
          { pending := st.pending ++ [(st.next_handle,
              createdUpload env st tmpdir path SendMode.AUTO)],
            next_handle := st.next_handle + 1 })) := by
  refine ⟨?_, ?_, ?_, ?_⟩
  · intro hmedia hext
    obtain ⟨hup, _, _⟩ := pathcat_media_facts _ hmedia
    rw [create_file]
    rw [if_neg (by simp [hup])]
    rw [if_neg hchat]
    rw [if_pos (by simp [hmedia, hext])]
  · intro hmedia hext
    obtain ⟨hup, hfd, hfp⟩ := pathcat_media_facts _ hmedia
    rw [create_file_success_eq env st tmpdir path hup hchat
      (by simp [hext])]
    rw [if_neg (by simp [hfd, hfp]), if_pos hmedia]
  · intro hfiles
    have hup := pathcat_files_facts _ hfiles
    have hnomedia := pathcat_files_not_media _ hfiles
    rw [create_file_success_eq env st tmpdir path hup hchat
      (by simp [hnomedia])]
    rw [if_pos hfiles]
  · intro hupl
    obtain ⟨hup, hfd, hfp, hmd, hmp⟩ := pathcat_upload_facts _ hupl
    rw [create_file_success_eq env st tmpdir path hup hchat
      (by simp [hmd, hmp])]
    rw [if_neg (by simp [hfd, hfp]), if_neg (by simp [hmd, hmp])]

/-- The contact of the C8/C9 witness scenarios. -/
def aliceUser : TgUser :=
  { id := 7, username := "alice", is_contact := true, last_message_timestamp := 0 }

/-- The single-contact environment of the C8 witness scenario. -/
def aliceEnv : EntityDir :=
  { users := [("alice", aliceUser)], groups := [], channels := [] }

/-- The fresh upload state of the C8 witness scenario. -/
def st0 : UploadsState := {}

/-- C8 witness: the theorem at the spec's concrete scenario — a chat
`alice` with id 7; `create` on `media/notes.txt` yields `-EINVAL`
with no pending upload recorded, while `media/pic.jpg`, a `files/`
path, and a bare chat-directory path record `MEDIA`, `DOCUMENT` and
`AUTO` uploads. -/
theorem c8_create_upload_modes_witness :
    create_file aliceEnv st0 "/tmp" "/users/alice/media/notes.txt" =
      (-EINVAL, 0, st0) ∧
    create_file aliceEnv st0 "/tmp" "/users/alice/media/pic.jpg" =
      (0, st0.next_handle,
        { pending := st0.pending ++ [(st0.next_handle, createdUpload aliceEnv st0
            "/tmp" "/users/alice/media/pic.jpg" SendMode.MEDIA)],
          next_handle := st0.next_handle + 1 }) ∧
    create_file aliceEnv st0 "/tmp" "/users/alice/files/report.pdf" =
      (0, st0.next_handle,
        { pending := st0.pending ++ [(st0.next_handle, createdUpload aliceEnv st0
            "/tmp" "/users/alice/files/report.pdf" SendMode.DOCUMENT)],
          next_handle := st0.next_handle + 1 }) ∧
    create_file aliceEnv st0 "/tmp" "/users/alice/report.pdf" =
      (0, st0.next_handle,
        { pending := st0.pending ++ [(st0.next_handle, createdUpload aliceEnv st0
            "/tmp" "/users/alice/report.pdf" SendMode.AUTO)],
          next_handle := st0.next_handle + 1 }) := by
  refine ⟨?_, ?_, ?_, ?_⟩
  · exact (c8_create_upload_modes aliceEnv st0 "/tmp"
      "/users/alice/media/notes.txt" (by decide)).1 (by decide) (by decide)
  · exact (c8_create_upload_modes aliceEnv st0 "/tmp"
      "/users/alice/media/pic.jpg" (by decide)).2.1 (by decide) (by decide)
  · exact (c8_create_upload_modes aliceEnv st0 "/tmp"
      "/users/alice/files/report.pdf" (by decide)).2.2.1 (by decide)
  · exact (c8_create_upload_modes aliceEnv st0 "/tmp"
      "/users/alice/report.pdf" (by decide)).2.2.2 (by decide)

/-! ## Claim C9 — root-level `@username` symlinks -/

theorem scan_users_none {α : Type} (l : List (String × TgUser)) (u : String)
    (g : String × TgUser → α)
    (h : ∀ p ∈ l, ¬ (p.2.username = u ∧ p.2.is_contact = true)) :
    l.findSome? (fun p =>
      if p.2.username = u ∧ p.2.is_contact then some (g p) else none) = none := by
  induction l with
  | nil => rfl
  | cons x xs ih =>
    rw [List.findSome?_cons]
    rw [if_neg (h x (List.mem_cons_self x xs))]
    exact ih (fun p hp => h p (List.mem_cons_of_mem x hp))

theorem scan_users_first (l : List (String × TgUser)) (u : String)
    (h : ∃ p ∈ l, p.2.username = u ∧ p.2.is_contact = true) :
    ∃ d user, (d, user) ∈ l ∧ user.username = u ∧ user.is_contact = true ∧
      ∀ {α : Type} (g : String × TgUser → α),
        l.findSome? (fun p =>
          if p.2.username = u ∧ p.2.is_contact then some (g p) else none) =
          some (g (d, user)) := by
  induction l with
  | nil => simp at h
  | cons x xs ih =>
    by_cases hx : x.2.username = u ∧ x.2.is_contact = true
    · refine ⟨x.1, x.2, by simp, hx.1, hx.2, ?_⟩
      intro α g
      rw [List.findSome?_cons, if_pos hx]
    · have h' : ∃ p ∈ xs, p.2.username = u ∧ p.2.is_contact = true := by
        rcases h with ⟨p, hp, hcond⟩
        rcases List.mem_cons.mp hp with rfl | hp'
        · exact absurd hcond hx
        · exact ⟨p, hp', hcond⟩
      obtain ⟨d, user, hmem, h1, h2, hg⟩ := ih h'
      refine ⟨d, user, List.mem_cons_of_mem x hmem, h1, h2, ?_⟩
      intro α g
      rw [List.findSome?_cons, if_neg hx]
      exact hg g

theorem make_symlink_target_ne (mp rel : String) (h : rel ≠ "") :
    make_symlink_target mp rel ≠ "" := by
  rw [make_symlink_target]
  split
  · exact h
  · intro hc
    have hlen := congrArg String.length hc
    rw [String.length_append, String.length_append] at hlen
    have h1 : ("/" : String).length = 1 := rfl
    have h0 : ("" : String).length = 0 := rfl
    omega

theorem users_slash_ne (d : String) : ("users/" ++ d) ≠ "" := by
  intro hc
  have hlen := congrArg String.length hc
  rw [String.length_append] at hlen
  have h1 : ("users/" : String).length = 6 := rfl
  have h0 : ("" : String).length = 0 := rfl
  omega

theorem splitOnSlash_no_slash (cs : List Char) (h : '/' ∉ cs) :
    splitOnSlash cs = [cs] := by
  induction cs with
  | nil => rfl
  | cons c rest ih =>
    have hc : ¬ c = '/' := fun he => h (he ▸ List.mem_cons_self c rest)
    rw [splitOnSlash, if_neg hc,
      ih (fun hm => h (List.mem_cons_of_mem c hm))]

/-- The path router sends `/@u` to `ROOT_SYMLINK` with entity `u`,
for any username (no `/` in it). -/
theorem parse_path_at_username (u : String) (hu : '/' ∉ u.data) :
    parse_path ("/@" ++ u) =
      { category := .ROOT_SYMLINK, entity_name := u } := by
  have hdata : ("/@" ++ u).data = '/' :: '@' :: u.data := by
    rw [String.data_append]
    rfl
  have hne1 : ("/@" ++ u) ≠ "" := by
    intro hc
    have := congrArg String.data hc
    rw [hdata] at this
    simp at this
  have hne2 : ("/@" ++ u) ≠ "/" := by
    intro hc
    have := congrArg String.data hc
    rw [hdata] at this
    simp at this
  have hsplit : splitOnSlash ("/@" ++ u).toList = [[], '@' :: u.data] := by
    have htl : ("/@" ++ u).toList = '/' :: '@' :: u.data := hdata
    rw [htl, splitOnSlash, if_pos rfl,
      splitOnSlash_no_slash ('@' :: u.data) (by simp [hu])]
  have hs' : String.mk ('@' :: u.data) ≠ "" := by
    intro hc
    have := congrArg String.data hc
    simp at this
  have hdot : String.mk ('@' :: u.data) ≠ "." := by
    intro hc
    have := congrArg String.data hc
    simp at this
  have hddot : String.mk ('@' :: u.data) ≠ ".." := by
    intro hc
    have := congrArg String.data hc
    simp at this
  rw [parse_path, if_neg (by simp [hne1, hne2])]
  rw [pathComponents, hsplit]
  rw [List.map_cons, List.map_cons, List.map_nil]
  rw [show String.mk ([] : List Char) = "" from rfl]
  rw [List.filter_cons, List.filter_cons, List.filter_nil]
  rw [if_neg (by simp), if_pos (by simp [hs'])]
  rw [normalizeComponents, List.foldl_cons, List.foldl_nil]
  rw [if_neg hdot, if_neg hddot]
  rw [show ([] : List String) ++ [String.mk ('@' :: u.data)] =
    [String.mk ('@' :: u.data)] from rfl]
  rw [parse_components]
  rw [if_pos ⟨hs', rfl⟩]
  have heta : String.mk u.data = u := rfl
  rw [show (String.mk ('@' :: u.data)).toList.tail = u.data from rfl, heta]

/-- **C9.** For every username `u`, the root-level `@u` lookup
resolves — `get_entry` returns a symlink entry named `@u` whose
target is `users/<dir_name>` composed with the mount point, and
`read_link` returns that same non-empty target — iff some known user
has username `u` and is a contact; when no such contact-with-username
exists, `get_entry` returns none and `read_link` returns the empty
string. -/
theorem c9_root_symlink (env : EntityDir) (u : String) :
    ((¬ ∃ p ∈ env.users, p.2.username = u ∧ p.2.is_contact = true) →
      get_entry_root_symlink env u = none ∧
      read_link_root_symlink env u = "") ∧
    ((∃ p ∈ env.users, p.2.username = u ∧ p.2.is_contact = true) →
      ∃ d user, (d, user) ∈ env.users ∧ user.username = u ∧
        user.is_contact = true ∧
        get_entry_root_symlink env u = some
          { name := "@" ++ u, type := .SYMLINK, mode := 493,
            link_target := make_symlink_target env.mount_point ("users/" ++ d) } ∧
        read_link_root_symlink env u =
          make_symlink_target env.mount_point ("users/" ++ d) ∧
        make_symlink_target env.mount_point ("users/" ++ d) ≠ "") ∧
    ('/' ∉ u.data →
      parse_path ("/@" ++ u) =
        { category := .ROOT_SYMLINK, entity_name := u }) := by
  refine ⟨?_, ?_, parse_path_at_username u⟩
  · intro h
    push_neg at h
    have h' : ∀ p ∈ env.users, ¬ (p.2.username = u ∧ p.2.is_contact = true) := by
      intro p hp hc
      exact (h p hp hc.1) hc.2
    constructor
    · exact scan_users_none env.users u _ h'
    · rw [read_link_root_symlink, scan_users_none env.users u _ h']
  · intro h
    obtain ⟨d, user, hmem, h1, h2, hg⟩ := scan_users_first env.users u h
    refine ⟨d, user, hmem, h1, h2, ?_, ?_, ?_⟩
    · rw [get_entry_root_symlink, hg]
      rw [h1]
    · rw [read_link_root_symlink, hg]
    · exact make_symlink_target_ne _ _ (users_slash_ne d)

/-- C9 witness: in the single-contact `alice` environment, `@alice`
resolves to a symlink with target `users/alice`, while `@bob` does
not resolve. -/
theorem c9_root_symlink_witness :
    get_entry_root_symlink aliceEnv "alice" = some
      { name := "@alice", type := .SYMLINK, mode := 493,
        link_target := "users/alice" } ∧
    read_link_root_symlink aliceEnv "alice" = "users/alice" ∧
    get_entry_root_symlink aliceEnv "bob" = none ∧
    read_link_root_symlink aliceEnv "bob" = "" ∧
    parse_path "/@alice" =
      { category := .ROOT_SYMLINK, entity_name := "alice" } := by
  have hpos := (c9_root_symlink aliceEnv "alice").2.1
    ⟨("alice", aliceUser), by simp [aliceEnv], rfl, rfl⟩
  obtain ⟨d, user, hmem, h1, h2, hentry, hlink, _⟩ := hpos
  have hd : d = "alice" ∧ user = aliceUser := by
    rcases List.mem_singleton.mp hmem with h
    exact ⟨congrArg Prod.fst h, congrArg Prod.snd h⟩
  have hneg := (c9_root_symlink aliceEnv "bob").1 (by decide)
  have hparse := (c9_root_symlink aliceEnv "alice").2.2 (by decide)
  refine ⟨?_, ?_, hneg.1, hneg.2, hparse⟩
  · rw [hentry, hd.1]
    rfl
  · rw [hlink, hd.1]
    rfl

end TgFuse
